import Mathlib

/-!
# Financing Request Portal — verification of the validation / submission logic

Shallow embedding of the Financing Request Portal (React + yup + dayjs).
Calendar dates are modelled as explicit `(year, month, day)` triples; all
instants the program constructs from `YYYY-MM-DD` date-input strings are
local midnights, so time is measured in whole days: the millisecond scale
factor 86 400 000 is a positive constant that cancels in every ratio and
preserves every comparison the source performs.  JS floating-point values
are modelled as exact rationals (`ℚ`); every denominator that occurs is at
most `31 · 12`, far below any double-precision rounding that could flip one
of the source's comparisons against the integer bounds 1 and 3.
-/

/-- Gregorian calendar date, as produced by parsing a `YYYY-MM-DD` string. -/
structure CalDate where
  year : Nat
  month : Nat
  day : Nat
deriving DecidableEq

/-- Gregorian leap-year rule (as implemented by JS `Date` / dayjs). -/
def isLeap (y : Nat) : Bool :=
  (y % 4 == 0 && y % 100 != 0) || y % 400 == 0

/-- Number of days in month `m` (1-based) of year `y`. -/
def daysInMonth (y m : Nat) : Nat :=
  match m with
  | 2 => if isLeap y then 29 else 28
  | 4 => 30
  | 6 => 30
  | 9 => 30
  | 11 => 30
  | _ => 31

/-- Days in months `1 .. m-1` of year `y`. -/
def daysBeforeMonth (y m : Nat) : Nat :=
  (List.range (m - 1)).foldl (fun acc i => acc + daysInMonth y (i + 1)) 0

/-- Number of leap years in `1 .. n`. -/
def leapCount (n : Nat) : Nat :=
  n / 4 - n / 100 + n / 400

/-- Linear day number of a date (days since 0001-01-01, proleptic Gregorian).
Comparing / subtracting day numbers is exactly what comparing / subtracting
the millisecond values of the corresponding local midnights does in the
source. -/
def toDays (d : CalDate) : Nat :=
  365 * (d.year - 1) + leapCount (d.year - 1) + daysBeforeMonth d.year d.month + (d.day - 1)

/-- A well-formed calendar date (what a date input / a dayjs parse of a
`YYYY-MM-DD` string produces). -/
def ValidDate (d : CalDate) : Prop :=
  1 ≤ d.year ∧ 1 ≤ d.month ∧ d.month ≤ 12 ∧ 1 ≤ d.day ∧ d.day ≤ daysInMonth d.year d.month

instance (d : CalDate) : Decidable (ValidDate d) := by
  unfold ValidDate; infer_instance

/-- Successor day in the Gregorian calendar (JS `Date` day rollover). -/
def nextDay (d : CalDate) : CalDate :=
  if d.day < daysInMonth d.year d.month then ⟨d.year, d.month, d.day + 1⟩
  else if d.month < 12 then ⟨d.year, d.month + 1, 1⟩
  else ⟨d.year + 1, 1, 1⟩

/-- dayjs `add(n, 'day')`: JS `setDate(getDate() + n)`, i.e. `n` calendar-day
rollovers. -/
def addDaysCal (d : CalDate) : Nat → CalDate
  | 0 => d
  | n + 1 => addDaysCal (nextDay d) n

/-- dayjs `add(n, 'month')` (also used with negative `n` inside `monthDiff`):
set the day of month to 1, shift the month index with JS floor-normalisation
into the year (`setMonth`), then clamp the day of month to the length of the
target month. -/
def addMonths (d : CalDate) (n : Int) : CalDate :=
  let t : Int := 12 * (d.year : Int) + ((d.month : Int) - 1) + n;
  let y : Nat := (t / 12).toNat;
  let m : Nat := (t % 12).toNat + 1;
  ⟨y, m, min d.day (daysInMonth y m)⟩

/-- `wholeMonthDiff` of dayjs `monthDiff(a, b)`:
`(b.year() - a.year()) * 12 + (b.month() - a.month())` (the 0-based month
indices of the source differ from our 1-based months by a constant that
cancels in the subtraction). -/
def wholeMonthDiff (a b : CalDate) : Int :=
  ((b.year : Int) - (a.year : Int)) * 12 + ((b.month : Int) - (a.month : Int))

/-- The `anchor` of dayjs `monthDiff(a, b)`: `a.clone().add(wholeMonthDiff, 'month')`. -/
def mdAnchor (a b : CalDate) : CalDate :=
  addMonths a (wholeMonthDiff a b)

/-- The numerator `b - anchor` of dayjs `monthDiff(a, b)`, in days
(milliseconds divided by the constant 86 400 000, which cancels against the
same factor in `mdDen`). -/
def mdNum (a b : CalDate) : Int :=
  (toDays b : Int) - (toDays (mdAnchor a b) : Int)

/-- The denominator of dayjs `monthDiff(a, b)`: with `c := (b - anchor < 0)`
and `anchor2 := a.add(wholeMonthDiff + (c ? -1 : 1), 'month')`, it is
`anchor - anchor2` when `c` and `anchor2 - anchor` otherwise — in days. -/
def mdDen (a b : CalDate) : Int :=
  if mdNum a b < 0 then
    (toDays (mdAnchor a b) : Int) - (toDays (addMonths a (wholeMonthDiff a b - 1)) : Int)
  else
    (toDays (addMonths a (wholeMonthDiff a b + 1)) : Int) - (toDays (mdAnchor a b) : Int)

/-- dayjs `monthDiff(a, b)` for the branch `a.date() ≥ b.date()` (the source
swaps the arguments when `a.date() < b.date()`), i.e.
`-(wholeMonthDiff + (b - anchor) / (anchor gap))`.  The rational is built
with `Rat.divInt` so that it evaluates inside the kernel;
`monthDiffCore_eq_div` below proves it equal to the source's arithmetic
shape.  (The source's trailing `|| 0` only turns the unreachable `NaN`/`-0`
cases into `0`; `Rat.divInt _ 0 = 0` likewise, and `mdDen` is a full month
length, hence never `0`, for any well-formed dates.) -/
def monthDiffCore (a b : CalDate) : ℚ :=
  Rat.divInt (-(wholeMonthDiff a b * mdDen a b + mdNum a b)) (mdDen a b)

/-- dayjs `monthDiff(a, b)` with the day-of-month swap guard
`if (a.date() < b.date()) return -monthDiff(b, a)` (after the swap the guard
is false, so the recursion runs at most once and is inlined here). -/
def monthDiff (a b : CalDate) : ℚ :=
  if a.day < b.day then -(monthDiffCore b a) else monthDiffCore a b

/-- `calculateValidityPeriod` (src/unnamed/part_005): dayjs
`end.diff(start, 'year', true)`, which is `monthDiff(end, start) / 12`.
Written with `Rat.divInt` for kernel evaluation;
`calculateValidityPeriod_eq_div` below proves it equal to the division
form. -/
def calculateValidityPeriod (startDate endDate : CalDate) : ℚ :=
  let r := monthDiff endDate startDate;
  Rat.divInt r.num (12 * (r.den : Int))

/-- `OPEC_COUNTRIES` (src/src/utils/Constants.ts and src/unnamed/part_005). -/
def OPEC_COUNTRIES : List String :=
  ["DZ", "AO", "CG", "GQ", "GA", "IR", "IQ", "KW", "LY", "NG", "SA", "AE", "VE"]

/-- yup `string().required(msg)` presence check (`StringSchema._isPresent`):
a string field is present iff it is defined, non-null and of non-zero
length.  The value is *not* trimmed, so a whitespace-only string is present.
`none` models the JS `undefined`/`null` field value. -/
def stringFieldPresent (v : Option String) : Bool :=
  match v with
  | none => false
  | some s => s.length != 0

/-- `[A-Z]` character class of the project-code regex. -/
def isUpperAZ (c : Char) : Bool :=
  'A' ≤ c && c ≤ 'Z'

/-- `[1-9]` character class of the project-code regex. -/
def isDigit1to9 (c : Char) : Bool :=
  '1' ≤ c && c ≤ '9'

/-- The anchored regex `^[A-Z]{4}-[1-9]{4}$` of `financingSchema.projectCode`
(src/src/utils/Constants.ts and src/unnamed/part_005), transliterated:
exactly four uppercase ASCII letters, a literal hyphen, then four digits
each drawn from `1`–`9`. -/
def projectCodeMatches (s : String) : Bool :=
  match s.data with
  | [c1, c2, c3, c4, h, d1, d2, d3, d4] =>
      isUpperAZ c1 && isUpperAZ c2 && isUpperAZ c3 && isUpperAZ c4 && (h == '-') &&
      isDigit1to9 d1 && isDigit1to9 d2 && isDigit1to9 d3 && isDigit1to9 d4
  | _ => false

/-- `financingSchema.startDate` test `'min-start-date'` (src/unnamed/part_005):
`dayjs(value).isSameOrAfter(dayjs().add(15, 'day'), 'day')`.  `today` is the
local calendar date of `dayjs()` at validation time; the time-of-day
component of `dayjs()` is irrelevant because `add(15, 'day')` preserves it
and the comparison is at `'day'` granularity, which compares the calendar
days (equivalently, the day numbers) of the two instants. -/
def startDateValid (today sel : CalDate) : Bool :=
  toDays (addDaysCal today 15) ≤ toDays sel

/-- `financingSchema.endDate` test `'validity-period'` (src/unnamed/part_005),
for present `value` and `this.parent.startDate`: reject when
`end.isBefore(start) || end.isSame(start)` (millisecond comparison of the
two midnights = day-number comparison), then reject when the fractional
validity period is `< 1` or `> 3`, else accept. -/
def endDateValid (startDate endDate : CalDate) : Bool :=
  if toDays endDate < toDays startDate || toDays endDate == toDays startDate then false
  else if calculateValidityPeriod startDate endDate < 1 then false
  else if 3 < calculateValidityPeriod startDate endDate then false
  else true

/-- The form's value object (`FinancingFormValues`, src/unnamed/part_003).
`amount` is `valueAsNumber`; the two dates are the parsed date-input
strings. -/
structure FormValues where
  name : String
  country : String
  projectCode : String
  description : String
  amount : ℚ
  currency : String
  startDate : CalDate
  endDate : CalDate
deriving DecidableEq

/-- Overall validity of a fully-filled form: the conjunction of every
`financingSchema` field rule (src/unnamed/part_005) as checked by
`yupResolver`.  Field values coming from the form inputs are always defined
strings, so the string `required` checks are applied to `some _`. -/
def formValid (today : CalDate) (v : FormValues) : Bool :=
  stringFieldPresent (some v.name) &&
  stringFieldPresent (some v.country) &&
  (projectCodeMatches v.projectCode && stringFieldPresent (some v.projectCode)) &&
  (decide (v.description.length ≤ 150) && stringFieldPresent (some v.description)) &&
  decide (0 < v.amount) &&
  stringFieldPresent (some v.currency) &&
  startDateValid today v.startDate &&
  endDateValid v.startDate v.endDate

/-- Form-controller state: the registered field values plus the `isOpec`
flag (`useState`). -/
structure ControllerState where
  values : FormValues
  isOpec : Bool
deriving DecidableEq

/-- The controller's reaction to a change of the country select
(src/unnamed/part_003 and the form of src/src/store/context.ts): the
registered `country` value becomes `c`, then the `useEffect` on
`watch('country')` recomputes OPEC membership with
`OPEC_COUNTRIES.includes(c)`, stores it in `isOpec`, and when it holds
forces `setValue('currency', 'USD')`; otherwise the currency value is not
touched. -/
def applyCountryChange (st : ControllerState) (c : String) : ControllerState :=
  let isOpecCountry := OPEC_COUNTRIES.contains c;
  { isOpec := isOpecCountry,
    values := { st.values with
      country := c,
      currency := if isOpecCountry then "USD" else st.values.currency } }

/-- The currency control renders as a disabled fixed `"USD"` text input when
`isOpec` and as a user-editable select otherwise (the spec's
`currencyIsUserEditable` capability flag). -/
def currencyIsUserEditable (st : ControllerState) : Bool :=
  !st.isOpec

/-- JS `Math.round` on an exact rational: nearest integer, halves toward
`+∞`, i.e. `⌊q + 1/2⌋`.  Implemented by integer floor division (`Int.ediv`,
the divisor is positive) so that it evaluates in the kernel;
`jsRound_eq_floor` below proves the floor shape. -/
def jsRound (q : ℚ) : Int :=
  (2 * q.num + (q.den : Int)) / (2 * (q.den : Int))

/-- The wire payload `apiData` built by `onSubmit` (src/unnamed/part_003). -/
structure ApiData where
  fullName : String
  countryCode : String
  projectCode : String
  description : String
  amount : ℚ
  currency : String
  date : CalDate
  validityPeriod : Int
deriving DecidableEq

/-- `onSubmit`'s payload construction (src/unnamed/part_003): field renames
`fullName ← name`, `countryCode ← country`, identity on `projectCode`,
`description`, `amount`, `currency`, `date ← startDate` (the ISO start-date
string), and `validityPeriod ← Math.round(calculateValidityPeriod(start, end))`. -/
def buildApiData (v : FormValues) : ApiData :=
  { fullName := v.name
    countryCode := v.country
    projectCode := v.projectCode
    description := v.description
    amount := v.amount
    currency := v.currency
    date := v.startDate
    validityPeriod := jsRound (calculateValidityPeriod v.startDate v.endDate) }

/-- Outcome of the `axios.post` call as classified by `onSubmit`'s `catch`
(src/unnamed/part_003): success, an HTTP error response (`error.response`,
with the optional `data.message`), a network error (`error.request` with no
response), or a request-construction failure (other `Error` with optional
`message`). -/
inductive SubmitResponse where
  | ok : SubmitResponse
  | httpError : Nat → Option String → SubmitResponse
  | networkError : SubmitResponse
  | requestSetupError : Option String → SubmitResponse
deriving DecidableEq

/-- Discriminator for the success outcome. -/
def SubmitResponse.isOk : SubmitResponse → Bool
  | .ok => true
  | _ => false

/-- The user-facing message chosen by the `catch` branch of `onSubmit`
(src/unnamed/part_003): the `switch (status)` over 400/401/403/409/422/500,
whose default is `data?.message || 'Server error (status). Please try again.'`
(JS `||`: an absent or empty `message` falls through to the template), the
network-error message, and `error.message || '...'` for setup failures. -/
def submitErrorMessage : SubmitResponse → String
  | .ok => ""
  | .httpError 400 _ => "Invalid request data. Please check your information and try again."
  | .httpError 401 _ => "Authentication required. Please log in and try again."
  | .httpError 403 _ => "Access denied. You do not have permission to submit this request."
  | .httpError 409 _ => "A request with this project code already exists. Please use a different project code."
  | .httpError 422 _ => "Validation error. Please check your form data and try again."
  | .httpError 500 _ => "Server error. Please try again later."
  | .httpError status (some m) =>
      if m.length != 0 then m
      else "Server error (" ++ toString status ++ "). Please try again."
  | .httpError status none => "Server error (" ++ toString status ++ "). Please try again."
  | .networkError => "Network error. Please check your internet connection and try again."
  | .requestSetupError (some m) =>
      if m.length != 0 then m
      else "An unexpected error occurred. Please try again."
  | .requestSetupError none => "An unexpected error occurred. Please try again."

/-- `reset()` of react-hook-form with no configured default values: every
field cleared.  The date fields of this embedding are not optional, so the
cleared date inputs are represented by the epoch placeholder. -/
def resetFormValues : FormValues :=
  { name := "", country := "", projectCode := "", description := "", amount := 0,
    currency := "", startDate := ⟨1970, 1, 1⟩, endDate := ⟨1970, 1, 1⟩ }

/-- One submit cycle of `onSubmit` (src/unnamed/part_003) after the request
settled with `r`: on success the success toast is shown and `reset()` clears
the form; on any failure the mapped error message is toasted and the form
values are left untouched (`reset` is only reached on the success path). -/
def submitStep (v : FormValues) (r : SubmitResponse) : FormValues × String :=
  if r.isOk then (resetFormValues, "Financing request submitted successfully!")
  else (v, submitErrorMessage r)

/-- The legacy `minStartDate` of the form bundled with
src/src/store/context.ts:
`new Date(Date.now() + 1296000000).toISOString().split('T')[0]` — the *UTC*
calendar day of the instant 1 296 000 000 ms (exactly 15 days) after `now`.
`t` is ms since the epoch; the resulting linear day number determines the
`YYYY-MM-DD` string (the formatting of a day number is injective). -/
def minStartDateArith (t : Int) : Int :=
  (t + 1296000000) / 86400000

/-- `getMinStartDate()` (src/unnamed/part_005):
`dayjs().add(15, 'day').format('YYYY-MM-DD')` — the *local* calendar day of
`now`, advanced by 15 calendar days.  `offset` is the local UTC offset in
minutes (JS `-getTimezoneOffset()`), assumed constant across the 15-day
window (no DST transition inside it), so the day number is
`localDay(now) + 15`. -/
def getMinStartDateDay (t offset : Int) : Int :=
  (t + offset * 60000) / 86400000 + 15

/-- The spec's happy-path scenario: a concrete fully-filled valid form
(non-OPEC country, two-year validity window starting more than 15 days
after the sample validation day 2025-12-01). -/
def sampleForm : FormValues :=
  { name := "Jane Doe", country := "US", projectCode := "ABCD-1234",
    description := "test", amount := 1000, currency := "EUR",
    startDate := ⟨2026, 1, 1⟩, endDate := ⟨2028, 1, 1⟩ }

example : calculateValidityPeriod ⟨2025, 7, 1⟩ ⟨2026, 7, 1⟩ = 1 := by decide
example : calculateValidityPeriod ⟨2025, 7, 1⟩ ⟨2026, 8, 16⟩ = Rat.divInt 27 24 := by decide
example : calculateValidityPeriod ⟨2024, 1, 1⟩ ⟨2025, 1, 1⟩ = 1 := by decide
example : toDays ⟨2026, 7, 1⟩ - toDays ⟨2025, 7, 1⟩ = 365 := by decide
example : toDays ⟨2025, 1, 1⟩ - toDays ⟨2024, 1, 1⟩ = 366 := by decide
example : endDateValid ⟨2025, 7, 1⟩ ⟨2026, 7, 1⟩ = true := by decide
example : endDateValid ⟨2025, 7, 1⟩ ⟨2026, 6, 30⟩ = false := by decide
example : endDateValid ⟨2025, 7, 1⟩ ⟨2028, 7, 1⟩ = true := by decide
example : endDateValid ⟨2025, 7, 1⟩ ⟨2028, 7, 2⟩ = false := by decide
example : projectCodeMatches "ABCD-1234" = true := by decide
example : projectCodeMatches "ABCD-1034" = false := by decide
example : jsRound (Rat.divInt 5 2) = 3 := by decide
example : jsRound (Rat.divInt 3 2) = 2 := by decide
example : jsRound (Rat.divInt 7 3) = 2 := by decide

/-! ## Bridge lemmas: the executable rational encodings equal the source's
arithmetic shapes -/

/-- `monthDiffCore` is the source's `-(wholeMonthDiff + (b - anchor) / gap)`. -/
theorem monthDiffCore_eq_div (a b : CalDate) (hd : mdDen a b ≠ 0) :
    monthDiffCore a b =
      -((wholeMonthDiff a b : ℚ) + (mdNum a b : ℚ) / (mdDen a b : ℚ)) := by
  have hd' : ((mdDen a b : Int) : ℚ) ≠ 0 := Int.cast_ne_zero.mpr hd
  rw [monthDiffCore, Rat.divInt_eq_div]
  push_cast
  field_simp

/-- `calculateValidityPeriod` is the source's `monthDiff(end, start) / 12`. -/
theorem calculateValidityPeriod_eq_div (s e : CalDate) :
    calculateValidityPeriod s e = monthDiff e s / 12 := by
  have hden : ((monthDiff e s).den : ℚ) ≠ 0 := by
    exact_mod_cast (monthDiff e s).den_nz
  have hnum : ((monthDiff e s).num : ℚ) = monthDiff e s * (monthDiff e s).den := by
    have hq := Rat.num_div_den (monthDiff e s)
    rw [div_eq_iff hden] at hq
    exact hq
  have h12 : (12 : ℚ) * ((monthDiff e s).den : ℚ) ≠ 0 := by
    exact mul_ne_zero (by norm_num) hden
  rw [calculateValidityPeriod, Rat.divInt_eq_div]
  push_cast
  rw [div_eq_iff h12, hnum]
  ring

/-- `jsRound` is `⌊q + 1/2⌋`, the JS `Math.round` (halves toward `+∞`). -/
theorem jsRound_eq_floor (q : ℚ) : jsRound q = ⌊q + 1 / 2⌋ := by
  have hden : ((q.den : ℚ)) ≠ 0 := by exact_mod_cast q.den_nz
  have hnum : (q.num : ℚ) = q * q.den := by
    have hq := Rat.num_div_den q
    rw [div_eq_iff hden] at hq
    exact hq
  have h2 : ((2 * q.den : ℕ) : ℚ) ≠ 0 := by
    exact_mod_cast Nat.mul_ne_zero (by norm_num) q.den_nz
  have h : q + 1 / 2 = ((2 * q.num + (q.den : Int) : Int) : ℚ) / ((2 * q.den : ℕ) : ℚ) := by
    rw [eq_div_iff h2]
    push_cast
    rw [hnum]
    ring
  rw [jsRound, h, Rat.floor_intCast_div_natCast]
  congr 1

/-! ## Calendar lemmas -/

/-- Every month has at least one day. -/
theorem daysInMonth_pos (y m : Nat) : 1 ≤ daysInMonth y m := by
  unfold daysInMonth
  split <;> try omega
  split <;> omega

/-- Peeling the last month off `daysBeforeMonth`. -/
theorem daysBeforeMonth_succ (y m : Nat) (h : 1 ≤ m) :
    daysBeforeMonth y (m + 1) = daysBeforeMonth y m + daysInMonth y m := by
  obtain ⟨k, rfl⟩ : ∃ k, m = k + 1 := ⟨m - 1, by omega⟩
  simp [daysBeforeMonth, List.range_succ]

/-- The leap-year count steps by the leap indicator of the new year. -/
theorem leapCount_succ (y : Nat) (h : 1 ≤ y) :
    leapCount y = leapCount (y - 1) + (if isLeap y then 1 else 0) := by
  unfold leapCount isLeap
  split_ifs with hl
  · simp only [Bool.or_eq_true, Bool.and_eq_true, beq_iff_eq, bne_iff_ne, ne_eq] at hl
    omega
  · simp only [Bool.or_eq_true, Bool.and_eq_true, beq_iff_eq, bne_iff_ne, ne_eq,
      not_or, not_and, Decidable.not_not] at hl
    omega

/-- December has 334 or 335 days before it, by the leap indicator. -/
theorem daysBeforeMonth_twelve (y : Nat) :
    daysBeforeMonth y 12 = 334 + (if isLeap y then 1 else 0) := by
  simp only [daysBeforeMonth, List.range_succ, List.range_zero, List.nil_append,
    List.foldl_append, List.foldl_cons, List.foldl_nil]
  simp [daysInMonth]
  split_ifs <;> omega

/-- The JS day rollover advances the linear day number by one and preserves
well-formedness. -/
theorem toDays_nextDay (d : CalDate) (h : ValidDate d) :
    toDays (nextDay d) = toDays d + 1 ∧ ValidDate (nextDay d) := by
  obtain ⟨hy, hm1, hm2, hd1, hd2⟩ := h
  unfold nextDay
  split_ifs with h1 h2
  · refine ⟨?_, hy, hm1, hm2, show 1 ≤ d.day + 1 by omega, ?_⟩
    · show 365 * (d.year - 1) + leapCount (d.year - 1) + daysBeforeMonth d.year d.month +
        (d.day + 1 - 1) = toDays d + 1
      simp only [toDays]
      omega
    · show d.day + 1 ≤ daysInMonth d.year d.month
      omega
  · have hb := daysBeforeMonth_succ d.year d.month hm1
    refine ⟨?_, hy, show 1 ≤ d.month + 1 by omega, show d.month + 1 ≤ 12 by omega,
      show (1 : Nat) ≤ 1 by omega, ?_⟩
    · show 365 * (d.year - 1) + leapCount (d.year - 1) + daysBeforeMonth d.year (d.month + 1) +
        (1 - 1) = toDays d + 1
      simp only [toDays]
      omega
    · show 1 ≤ daysInMonth d.year (d.month + 1)
      exact daysInMonth_pos d.year (d.month + 1)
  · have hm : d.month = 12 := by omega
    have h31 : daysInMonth d.year 12 = 31 := rfl
    have hday : d.day = 31 := by rw [hm] at hd2 h1; omega
    have hb := daysBeforeMonth_twelve d.year
    have hl := leapCount_succ d.year hy
    refine ⟨?_, show 1 ≤ d.year + 1 by omega, show (1 : Nat) ≤ 1 by omega,
      show (1 : Nat) ≤ 12 by omega, show (1 : Nat) ≤ 1 by omega, ?_⟩
    · show 365 * (d.year + 1 - 1) + leapCount (d.year + 1 - 1) + daysBeforeMonth (d.year + 1) 1 +
        (1 - 1) = toDays d + 1
      have hb1 : daysBeforeMonth (d.year + 1) 1 = 0 := rfl
      simp only [toDays, hm, hday, Nat.add_sub_cancel] at *
      omega
    · show 1 ≤ daysInMonth (d.year + 1) 1
      exact daysInMonth_pos _ _

/-- `add(n, 'day')` advances the linear day number by `n` and preserves
well-formedness. -/
theorem toDays_addDaysCal (n : Nat) (d : CalDate) (h : ValidDate d) :
    toDays (addDaysCal d n) = toDays d + n ∧ ValidDate (addDaysCal d n) := by
  induction n generalizing d with
  | zero => exact ⟨rfl, h⟩
  | succ n ih =>
      obtain ⟨hstep, hvalid⟩ := toDays_nextDay d h
      obtain ⟨hrec, hrecv⟩ := ih (nextDay d) hvalid
      refine ⟨?_, hrecv⟩
      show toDays (addDaysCal (nextDay d) n) = toDays d + (n + 1)
      omega

/-! ## Claim theorems -/

/-- C2: for every `startDate` value, the `'min-start-date'` rule passes iff
the selected date is on or after today + 15 days at day granularity, where
`today` is the (dynamic) date of validation; `today + 14` days fails and
`today + 15` days passes. -/
theorem c2_startDate_rule (today sel : CalDate) (h : ValidDate today) :
    (startDateValid today sel = true ↔ toDays today + 15 ≤ toDays sel) ∧
    startDateValid today (addDaysCal today 14) = false ∧
    startDateValid today (addDaysCal today 15) = true := by
  obtain ⟨h15, -⟩ := toDays_addDaysCal 15 today h
  obtain ⟨h14, -⟩ := toDays_addDaysCal 14 today h
  unfold startDateValid
  refine ⟨?_, ?_, ?_⟩
  · simp only [decide_eq_true_eq, h15]
  · simp only [decide_eq_false_iff_not, h15, h14]
    omega
  · simp only [decide_eq_true_eq, h15]
    omega

/-- C2 witness: a concrete validation-day instance. -/
theorem c2_startDate_rule_witness :
    ValidDate ⟨2025, 7, 1⟩ ∧
    ((startDateValid ⟨2025, 7, 1⟩ ⟨2025, 7, 20⟩ = true ↔
        toDays ⟨2025, 7, 1⟩ + 15 ≤ toDays ⟨2025, 7, 20⟩) ∧
      startDateValid ⟨2025, 7, 1⟩ (addDaysCal ⟨2025, 7, 1⟩ 14) = false ∧
      startDateValid ⟨2025, 7, 1⟩ (addDaysCal ⟨2025, 7, 1⟩ 15) = true) :=
  ⟨by decide, c2_startDate_rule ⟨2025, 7, 1⟩ ⟨2025, 7, 20⟩ (by decide)⟩

/-- C1: for every pair of dates, the `'validity-period'` rule passes iff the
end date is strictly after the form's start date and the fractional year
count between them lies in the closed interval `[1, 3]` — the window is
anchored at the start-date parameter, not at any fixed calendar date. -/
theorem c1_endDate_rule (s e : CalDate) :
    endDateValid s e = true ↔
      toDays s < toDays e ∧
      1 ≤ calculateValidityPeriod s e ∧ calculateValidityPeriod s e ≤ 3 := by
  unfold endDateValid
  split_ifs with h1 h2 h3
  · simp only [Bool.or_eq_true, decide_eq_true_eq, beq_iff_eq] at h1
    simp only [Bool.false_eq_true, false_iff]
    rintro ⟨hlt, -, -⟩
    omega
  · simp only [Bool.false_eq_true, false_iff]
    rintro ⟨-, hge, -⟩
    linarith
  · simp only [Bool.false_eq_true, false_iff]
    rintro ⟨-, -, hle⟩
    linarith
  · simp only [Bool.or_eq_true, decide_eq_true_eq, beq_iff_eq, not_or] at h1
    simp only [true_iff]
    exact ⟨by omega, le_of_not_lt h2, le_of_not_lt h3⟩

/-- C3: the OPEC predicate holds exactly for the thirteen member codes, and
a country change to an OPEC code forces the resulting form state's currency
to `"USD"`, overwriting any previously chosen value. -/
theorem c3_opec_membership_and_usd :
    (∀ c : String, OPEC_COUNTRIES.contains c = true ↔
      (c = "DZ" ∨ c = "AO" ∨ c = "CG" ∨ c = "GQ" ∨ c = "GA" ∨ c = "IR" ∨ c = "IQ" ∨
        c = "KW" ∨ c = "LY" ∨ c = "NG" ∨ c = "SA" ∨ c = "AE" ∨ c = "VE")) ∧
    (∀ (st : ControllerState) (c : String), OPEC_COUNTRIES.contains c = true →
      (applyCountryChange st c).values.currency = "USD") := by
  constructor
  · intro c
    simp [OPEC_COUNTRIES, List.contains_cons, Bool.or_eq_true, beq_iff_eq]
  · intro st c hc
    have hm : c ∈ OPEC_COUNTRIES := by simpa using hc
    simp [applyCountryChange, hm]

/-- C3 witness: selecting Saudi Arabia over a previously chosen `"EUR"`. -/
theorem c3_opec_membership_and_usd_witness :
    OPEC_COUNTRIES.contains "SA" = true ∧
    (applyCountryChange
        ⟨{ name := "Jane Doe", country := "US", projectCode := "ABCD-1234",
           description := "test", amount := 1000, currency := "EUR",
           startDate := ⟨2026, 1, 1⟩, endDate := ⟨2028, 1, 1⟩ }, false⟩
        "SA").values.currency = "USD" :=
  ⟨by decide, c3_opec_membership_and_usd.2 _ "SA" (by decide)⟩

/-- C8: a country change to a non-OPEC code leaves the currency value
unchanged (a previously forced `"USD"` is not auto-cleared); only the OPEC
flag — and with it the editability of the currency control — changes. -/
theorem c8_non_opec_preserves_currency (st : ControllerState) (c : String)
    (h : OPEC_COUNTRIES.contains c = false) :
    (applyCountryChange st c).values.currency = st.values.currency ∧
    (applyCountryChange st c).isOpec = false ∧
    currencyIsUserEditable (applyCountryChange st c) = true ∧
    (applyCountryChange st c).values.country = c := by
  have hm : c ∉ OPEC_COUNTRIES := by simpa using h
  simp [applyCountryChange, currencyIsUserEditable, hm]

/-- C8 witness: switching from Saudi Arabia to the United States keeps the
forced `"USD"`. -/
theorem c8_non_opec_preserves_currency_witness :
    OPEC_COUNTRIES.contains "US" = false ∧
    ((applyCountryChange
        ⟨{ name := "Jane Doe", country := "SA", projectCode := "ABCD-1234",
           description := "test", amount := 1000, currency := "USD",
           startDate := ⟨2026, 1, 1⟩, endDate := ⟨2028, 1, 1⟩ }, true⟩
        "US").values.currency =
      ({ name := "Jane Doe", country := "SA", projectCode := "ABCD-1234",
         description := "test", amount := 1000, currency := "USD",
         startDate := ⟨2026, 1, 1⟩, endDate := ⟨2028, 1, 1⟩ } : FormValues).currency ∧
      (applyCountryChange
        ⟨{ name := "Jane Doe", country := "SA", projectCode := "ABCD-1234",
           description := "test", amount := 1000, currency := "USD",
           startDate := ⟨2026, 1, 1⟩, endDate := ⟨2028, 1, 1⟩ }, true⟩
        "US").isOpec = false ∧
      currencyIsUserEditable (applyCountryChange
        ⟨{ name := "Jane Doe", country := "SA", projectCode := "ABCD-1234",
           description := "test", amount := 1000, currency := "USD",
           startDate := ⟨2026, 1, 1⟩, endDate := ⟨2028, 1, 1⟩ }, true⟩
        "US") = true ∧
      (applyCountryChange
        ⟨{ name := "Jane Doe", country := "SA", projectCode := "ABCD-1234",
           description := "test", amount := 1000, currency := "USD",
           startDate := ⟨2026, 1, 1⟩, endDate := ⟨2028, 1, 1⟩ }, true⟩
        "US").values.country = "US") :=
  ⟨by decide, c8_non_opec_preserves_currency _ "US" (by decide)⟩

/-- C7: an HTTP 409 response produces the duplicate-project-code failure
message and leaves every form field untouched; the reset that clears the
fields happens exactly on the success outcome. -/
theorem c7_conflict_and_reset_only_on_success :
    (∀ (v : FormValues) (d : Option String),
        submitStep v (.httpError 409 d) =
          (v, "A request with this project code already exists. Please use a different project code.")) ∧
    (∀ (v : FormValues) (r : SubmitResponse),
        (submitStep v r).1 = if r.isOk then resetFormValues else v) := by
  constructor
  · intro v d
    cases d <;> rfl
  · intro v r
    cases r <;> rfl

/-- A string has length zero exactly when it is the empty string. -/
theorem string_length_eq_zero_iff (s : String) : s.length = 0 ↔ s = "" := by
  cases s with
  | mk data =>
      cases data with
      | nil => constructor <;> intro <;> rfl
      | cons c cs => simp [String.length, String.ext_iff]

/-- C9 counterexample: a whitespace-only name passes the yup `required`
presence check (the value is not trimmed), refuting the claim that every
whitespace-only string fails `Required`. -/
theorem c9_whitespace_name_counterexample :
    stringFieldPresent (some "   ") = true ∧
    ("   " : String).data.all (fun ch => ch == ' ') = true := by
  decide

/-- C9 amended: the `name` rule fails `Required` exactly when the value is
absent or the empty string; whitespace-only non-empty strings pass. -/
theorem c9_name_required_iff_empty (v : Option String) :
    stringFieldPresent v = false ↔ v = none ∨ v = some "" := by
  cases v with
  | none => simp [stringFieldPresent]
  | some s => simp [stringFieldPresent, string_length_eq_zero_iff]

/-- Shape characterisation of the project-code matcher. -/
theorem projectCodeMatches_iff (s : String) :
    projectCodeMatches s = true ↔
      ∃ u1 u2 u3 u4 w1 w2 w3 w4 : Char,
        s.data = [u1, u2, u3, u4, '-', w1, w2, w3, w4] ∧
        ('A' ≤ u1 ∧ u1 ≤ 'Z') ∧ ('A' ≤ u2 ∧ u2 ≤ 'Z') ∧
        ('A' ≤ u3 ∧ u3 ≤ 'Z') ∧ ('A' ≤ u4 ∧ u4 ≤ 'Z') ∧
        ('1' ≤ w1 ∧ w1 ≤ '9') ∧ ('1' ≤ w2 ∧ w2 ≤ '9') ∧
        ('1' ≤ w3 ∧ w3 ≤ '9') ∧ ('1' ≤ w4 ∧ w4 ≤ '9') := by
  constructor
  · intro h
    unfold projectCodeMatches at h
    split at h
    · next c1 c2 c3 c4 hc d1 d2 d3 d4 heq =>
        simp only [isUpperAZ, isDigit1to9, Bool.and_eq_true, decide_eq_true_eq,
          beq_iff_eq] at h
        obtain ⟨⟨⟨⟨⟨⟨⟨⟨h1, h2⟩, h3⟩, h4⟩, h5⟩, h6⟩, h7⟩, h8⟩, h9⟩ := h
        subst h5
        exact ⟨c1, c2, c3, c4, d1, d2, d3, d4, heq, h1, h2, h3, h4, h6, h7, h8, h9⟩
    · next => exact absurd h (by simp)
  · rintro ⟨u1, u2, u3, u4, w1, w2, w3, w4, hdata, h1, h2, h3, h4, h5, h6, h7, h8⟩
    unfold projectCodeMatches
    rw [hdata]
    simp only [isUpperAZ, isDigit1to9, Bool.and_eq_true, decide_eq_true_eq, beq_iff_eq]
    exact ⟨⟨⟨⟨⟨⟨⟨⟨h1, h2⟩, h3⟩, h4⟩, trivial⟩, h5⟩, h6⟩, h7⟩, h8⟩

/-- Any character of a matching project code is an uppercase letter, the
hyphen, or a digit 1–9. -/
theorem projectCodeMatches_char_class (s : String) (c : Char)
    (h : projectCodeMatches s = true) (hc : c ∈ s.data) :
    ('A' ≤ c ∧ c ≤ 'Z') ∨ c = '-' ∨ ('1' ≤ c ∧ c ≤ '9') := by
  obtain ⟨u1, u2, u3, u4, w1, w2, w3, w4, hdata, h1, h2, h3, h4, h5, h6, h7, h8⟩ :=
    (projectCodeMatches_iff s).mp h
  rw [hdata] at hc
  simp only [List.mem_cons, List.not_mem_nil, or_false] at hc
  rcases hc with rfl | rfl | rfl | rfl | rfl | rfl | rfl | rfl | rfl <;> tauto

/-- C4: `projectCode` validation passes exactly on strings of shape
`^[A-Z]{4}-[1-9]{4}$`; strings containing a lowercase letter, a `0` digit,
a wrong total length, or no hyphen at all always fail. -/
theorem c4_projectCode_pattern :
    (∀ s : String, projectCodeMatches s = true ↔
      ∃ u1 u2 u3 u4 w1 w2 w3 w4 : Char,
        s.data = [u1, u2, u3, u4, '-', w1, w2, w3, w4] ∧
        ('A' ≤ u1 ∧ u1 ≤ 'Z') ∧ ('A' ≤ u2 ∧ u2 ≤ 'Z') ∧
        ('A' ≤ u3 ∧ u3 ≤ 'Z') ∧ ('A' ≤ u4 ∧ u4 ≤ 'Z') ∧
        ('1' ≤ w1 ∧ w1 ≤ '9') ∧ ('1' ≤ w2 ∧ w2 ≤ '9') ∧
        ('1' ≤ w3 ∧ w3 ≤ '9') ∧ ('1' ≤ w4 ∧ w4 ≤ '9')) ∧
    (∀ (s : String) (c : Char), c ∈ s.data → 'a' ≤ c → c ≤ 'z' →
      projectCodeMatches s = false) ∧
    (∀ s : String, '0' ∈ s.data → projectCodeMatches s = false) ∧
    (∀ s : String, s.data.length ≠ 9 → projectCodeMatches s = false) ∧
    (∀ s : String, '-' ∉ s.data → projectCodeMatches s = false) := by
  refine ⟨projectCodeMatches_iff, ?_, ?_, ?_, ?_⟩
  · intro s c hmem hlo hhi
    cases hb : projectCodeMatches s with
    | false => rfl
    | true =>
        rcases projectCodeMatches_char_class s c hb hmem with ⟨-, hz⟩ | rfl | ⟨-, hz⟩
        · exact absurd (le_trans hlo hz) (by decide)
        · exact absurd hlo (by decide)
        · exact absurd (le_trans hlo hz) (by decide)
  · intro s hmem
    cases hb : projectCodeMatches s with
    | false => rfl
    | true =>
        rcases projectCodeMatches_char_class s '0' hb hmem with ⟨ha, -⟩ | h0 | ⟨ha, -⟩
        · exact absurd ha (by decide)
        · exact absurd h0 (by decide)
        · exact absurd ha (by decide)
  · intro s hlen
    cases hb : projectCodeMatches s with
    | false => rfl
    | true =>
        obtain ⟨u1, u2, u3, u4, w1, w2, w3, w4, hdata, -⟩ :=
          (projectCodeMatches_iff s).mp hb
        rw [hdata] at hlen
        simp at hlen
  · intro s hmem
    cases hb : projectCodeMatches s with
    | false => rfl
    | true =>
        obtain ⟨u1, u2, u3, u4, w1, w2, w3, w4, hdata, -⟩ :=
          (projectCodeMatches_iff s).mp hb
        rw [hdata] at hmem
        simp at hmem

/-- C4 witness: concrete strings exercising each failure category. -/
theorem c4_projectCode_pattern_witness :
    projectCodeMatches "aBCD-1234" = false ∧
    projectCodeMatches "ABCD-1034" = false ∧
    projectCodeMatches "ABCD-123" = false ∧
    projectCodeMatches "ABCD12345" = false :=
  ⟨c4_projectCode_pattern.2.1 "aBCD-1234" 'a' (by decide) (by decide) (by decide),
   c4_projectCode_pattern.2.2.1 "ABCD-1034" (by decide),
   c4_projectCode_pattern.2.2.2.1 "ABCD-123" (by decide),
   c4_projectCode_pattern.2.2.2.2 "ABCD12345" (by decide)⟩

/-- C5: for every form passing all field validations, the wire payload maps
`fullName ← name`, `countryCode ← country` and carries `projectCode`,
`description`, `amount` and `currency` unchanged, with `date` the start
date and `validityPeriod` the integer rounding of the fractional year
count between the two dates. -/
theorem c5_payload_mapping (today : CalDate) (v : FormValues)
    (h : formValid today v = true) :
    (buildApiData v).fullName = v.name ∧
    (buildApiData v).countryCode = v.country ∧
    (buildApiData v).projectCode = v.projectCode ∧
    (buildApiData v).description = v.description ∧
    (buildApiData v).amount = v.amount ∧
    (buildApiData v).currency = v.currency ∧
    (buildApiData v).date = v.startDate ∧
    (buildApiData v).validityPeriod =
      ⌊calculateValidityPeriod v.startDate v.endDate + 1 / 2⌋ := by
  refine ⟨rfl, rfl, rfl, rfl, rfl, rfl, rfl, ?_⟩
  exact jsRound_eq_floor (calculateValidityPeriod v.startDate v.endDate)

/-- C5 witness: the concrete happy-path form validates and its payload maps
as stated. -/
theorem c5_payload_mapping_witness :
    formValid ⟨2025, 12, 1⟩ sampleForm = true ∧
    ((buildApiData sampleForm).fullName = sampleForm.name ∧
      (buildApiData sampleForm).countryCode = sampleForm.country ∧
      (buildApiData sampleForm).projectCode = sampleForm.projectCode ∧
      (buildApiData sampleForm).description = sampleForm.description ∧
      (buildApiData sampleForm).amount = sampleForm.amount ∧
      (buildApiData sampleForm).currency = sampleForm.currency ∧
      (buildApiData sampleForm).date = sampleForm.startDate ∧
      (buildApiData sampleForm).validityPeriod =
        ⌊calculateValidityPeriod sampleForm.startDate sampleForm.endDate + 1 / 2⌋) :=
  ⟨by decide, c5_payload_mapping ⟨2025, 12, 1⟩ sampleForm (by decide)⟩

/-- Evaluation of dayjs `add(k, 'month')` when the target month index is
known: floor-normalisation lands on year `Y`, month `M`, with the day
clamped to the target month's length. -/
theorem addMonths_eq (d : CalDate) (k : Int) (Y M : Nat)
    (hM1 : 1 ≤ M) (hM2 : M ≤ 12)
    (ht : 12 * (d.year : Int) + ((d.month : Int) - 1) + k = 12 * (Y : Int) + ((M : Int) - 1)) :
    addMonths d k = ⟨Y, M, min d.day (daysInMonth Y M)⟩ := by
  have h1 : (12 * (d.year : Int) + ((d.month : Int) - 1) + k) / 12 = (Y : Int) := by
    omega
  have h2 : (12 * (d.year : Int) + ((d.month : Int) - 1) + k) % 12 = (M : Int) - 1 := by
    omega
  have h3 : ((Y : Int)).toNat = Y := by omega
  have h4 : ((M : Int) - 1).toNat + 1 = M := by omega
  simp only [addMonths, h1, h2, h3, h4]

/-- C6 counterexample: `calculateValidityPeriod` returns exactly `1` both
for the 365-day span 2025-07-01 → 2026-07-01 and for the 366-day span
2024-01-01 → 2025-01-01, so the elapsed year count is not the day
difference divided by an average year length: dividing the 365-day span by
365.25 (= 1461/4) days gives 1460/1461, not the 1 the code computes. -/
theorem c6_not_day_based_counterexample :
    calculateValidityPeriod ⟨2025, 7, 1⟩ ⟨2026, 7, 1⟩ = 1 ∧
    calculateValidityPeriod ⟨2024, 1, 1⟩ ⟨2025, 1, 1⟩ = 1 ∧
    toDays ⟨2026, 7, 1⟩ - toDays ⟨2025, 7, 1⟩ = 365 ∧
    toDays ⟨2025, 1, 1⟩ - toDays ⟨2024, 1, 1⟩ = 366 ∧
    (365 : ℚ) / (1461 / 4) ≠ 1 := by
  refine ⟨by decide, by decide, by decide, by decide, ?_⟩
  norm_num

/-- C6 amended: `elapsedYears` is the date library's month-based fractional
year count (`end.diff(start, 'year', true)`: whole months plus intra-month
interpolation, divided by 12), not a day count scaled by ≈365.25 days per
year; in particular a span of exactly `n` calendar years (same month and
day of month) yields exactly `n`, however many leap days it contains. -/
theorem c6_month_based_whole_years (y n m day : Nat)
    (hy : 1 ≤ y) (hm1 : 1 ≤ m) (hm2 : m ≤ 12) (hd1 : 1 ≤ day)
    (hd2 : day ≤ daysInMonth y m) :
    calculateValidityPeriod ⟨y, m, day⟩ ⟨y + n, m, day⟩ = ((n : ℤ) : ℚ) := by
  have hw : wholeMonthDiff ⟨y + n, m, day⟩ ⟨y, m, day⟩ = -(12 * (n : Int)) := by
    simp only [wholeMonthDiff]
    push_cast
    ring
  have hanchor : mdAnchor ⟨y + n, m, day⟩ ⟨y, m, day⟩ = ⟨y, m, day⟩ := by
    rw [mdAnchor, hw, addMonths_eq ⟨y + n, m, day⟩ (-(12 * (n : Int))) y m hm1 hm2
      (by push_cast; ring)]
    simp only [Nat.min_eq_left hd2]
  have hnum : mdNum ⟨y + n, m, day⟩ ⟨y, m, day⟩ = 0 := by
    simp [mdNum, hanchor]
  have hden_eq : mdDen ⟨y + n, m, day⟩ ⟨y, m, day⟩ =
      (toDays (addMonths ⟨y + n, m, day⟩ (-(12 * (n : Int)) + 1)) : Int) -
        (toDays (⟨y, m, day⟩ : CalDate) : Int) := by
    rw [mdDen, if_neg (by rw [hnum]; omega), hw, hanchor]
  have hpos : 0 < mdDen ⟨y + n, m, day⟩ ⟨y, m, day⟩ := by
    rw [hden_eq]
    rcases Nat.lt_or_ge m 12 with hlt | hge
    · rw [addMonths_eq ⟨y + n, m, day⟩ (-(12 * (n : Int)) + 1) y (m + 1) (by omega) (by omega)
        (by push_cast; ring)]
      have hb := daysBeforeMonth_succ y m hm1
      have hp := daysInMonth_pos y (m + 1)
      simp only [toDays]
      omega
    · have hm12 : m = 12 := by omega
      subst hm12
      rw [addMonths_eq ⟨y + n, 12, day⟩ (-(12 * (n : Int)) + 1) (y + 1) 1 (by omega) (by omega)
        (by push_cast; ring)]
      have h31 : daysInMonth (y + 1) 1 = 31 := rfl
      have h31b : daysInMonth y 12 = 31 := rfl
      have hb := daysBeforeMonth_twelve y
      have hl := leapCount_succ y hy
      have hb1 : daysBeforeMonth (y + 1) 1 = 0 := rfl
      simp only [toDays, h31, hb1, Nat.add_sub_cancel]
      omega
  have hdne : mdDen ⟨y + n, m, day⟩ ⟨y, m, day⟩ ≠ 0 := by omega
  have hswap : ¬ ((⟨y + n, m, day⟩ : CalDate).day < (⟨y, m, day⟩ : CalDate).day) := by
    exact lt_irrefl day
  have hmd : monthDiff ⟨y + n, m, day⟩ ⟨y, m, day⟩ = ((12 * (n : Int) : Int) : ℚ) := by
    rw [monthDiff, if_neg hswap, monthDiffCore, hw, hnum]
    rw [show -(-(12 * (n : Int)) * mdDen ⟨y + n, m, day⟩ ⟨y, m, day⟩ + 0) =
        (12 * (n : Int)) * mdDen ⟨y + n, m, day⟩ ⟨y, m, day⟩ by ring]
    nth_rewrite 2 [show mdDen ⟨y + n, m, day⟩ ⟨y, m, day⟩ =
      1 * mdDen ⟨y + n, m, day⟩ ⟨y, m, day⟩ from (one_mul _).symm]
    rw [Rat.divInt_mul_right hdne, Rat.divInt_one]
  show Rat.divInt (monthDiff ⟨y + n, m, day⟩ ⟨y, m, day⟩).num
      (12 * ((monthDiff ⟨y + n, m, day⟩ ⟨y, m, day⟩).den : Int)) = ((n : ℤ) : ℚ)
  rw [hmd]
  simp only [Rat.num_intCast, Rat.den_intCast, Nat.cast_one]
  rw [show (12 * (n : Int)) = (n : Int) * 12 by ring,
    show ((12 : Int) * 1) = 1 * 12 by norm_num]
  rw [Rat.divInt_mul_right (by norm_num), Rat.divInt_one]

/-- C6 witness: a two-calendar-year span evaluates to exactly 2. -/
theorem c6_month_based_whole_years_witness :
    (1 ≤ 2025 ∧ 1 ≤ 7 ∧ 7 ≤ 12 ∧ 1 ≤ 1 ∧ 1 ≤ daysInMonth 2025 7) ∧
    calculateValidityPeriod ⟨2025, 7, 1⟩ ⟨2025 + 2, 7, 1⟩ = (((2 : ℕ) : ℤ) : ℚ) :=
  ⟨⟨by decide, by decide, by decide, by decide, by decide⟩,
   c6_month_based_whole_years 2025 2 7 1 (by decide) (by decide) (by decide) (by decide)
     (by decide)⟩

/-- C10 counterexample: at the instant 7 200 000 ms before the epoch —
local midnight of epoch day 0 in a UTC+2 zone — the dayjs implementation
(`getMinStartDate`, local calendar) yields day number 15 while the
millisecond-arithmetic implementation (`toISOString`, UTC calendar) yields
day number 14, so the two do not compute the same date string at every
evaluation instant. -/
theorem c10_min_start_date_counterexample :
    getMinStartDateDay (-7200000) 120 = 15 ∧
    minStartDateArith (-7200000) = 14 ∧
    getMinStartDateDay (-7200000) 120 ≠ minStartDateArith (-7200000) := by
  refine ⟨by decide, by decide, by decide⟩

/-- C10 amended: the two minimum-start-date computations agree at every
instant when the local UTC offset is zero (then the local calendar day is
the UTC calendar day, and adding 15 calendar days is adding 1 296 000 000
ms); in a zone with nonzero offset they can differ by one day around local
midnight. -/
theorem c10_min_start_date_utc_agreement (t : Int) :
    getMinStartDateDay t 0 = minStartDateArith t := by
  unfold getMinStartDateDay minStartDateArith
  omega
